import Mathlib

/-
Verification of the package data model and dependency-resolution layer of
marshall32/sampctl (Go).  The embedding below follows src/rook/rook.go
statement by statement.  Repository code that is referenced by rook.go but
not present under src/ (the dependency-string parser `Explode`, the
filesystem check `util.Exists` and the fetch helper `EnsurePackage`) is
modelled from the specification, as noted on each definition.
-/

set_option autoImplicit false

/-- PackageMeta represents all the components required to locate a package
version (src/rook/rook.go lines 51-57). -/
structure PackageMeta where
  User : String
  Repo : String
  Path : String
  Version : String
  deriving DecidableEq

/-- compiler.Config is an external collaborator (spec section 1, out of
scope); none of its contents are observed by any claim, so it is embedded
as a field-free structure. -/
structure CompilerConfig where
  deriving DecidableEq

/-- Resource represents a resource associated with a package
(src/rook/rook.go lines 59-67).  The Go map field Files is modelled as an
association list. -/
structure Resource where
  Name : String
  Platform : String
  Archive : Bool
  Includes : List String
  Plugins : List String
  Files : List (String × String)
  deriving DecidableEq

/-- DependencyString is declared in the rook package outside src/ (rook.go
uses it at line 46); per the spec (sections 4.1 and 6) it is simply the
textual dependency reference, so it is a String. -/
abbrev DependencyString := String

/-- Package (src/rook/rook.go lines 30-49).  The unexported source field
`local` is renamed local_ because `local` is a Lean keyword; the embedded
(promoted) PackageMeta of the Go struct is the named field meta, with the
promoted accessors defined below. -/
structure Package where
  local_ : String
  meta : PackageMeta
  Contributors : List String
  Website : String
  Entry : String
  Output : String
  Dependencies : List DependencyString
  Builds : List CompilerConfig
  Resources : List Resource
  deriving DecidableEq

/-- Go field promotion: pkg.User reads the embedded PackageMeta. -/
def Package.User (pkg : Package) : String := pkg.meta.User

/-- Go field promotion: pkg.Repo reads the embedded PackageMeta. -/
def Package.Repo (pkg : Package) : String := pkg.meta.Repo

/-- Go field promotion: pkg.Path reads the embedded PackageMeta. -/
def Package.Path (pkg : Package) : String := pkg.meta.Path

/-- Go field promotion: pkg.Version reads the embedded PackageMeta. -/
def Package.Version (pkg : Package) : String := pkg.meta.Version

/-- Package.String (src/rook/rook.go lines 69-71):
fmt.Sprintf of the pattern user slash repo colon version.  Named toString
because `Package.String` would shadow the String type inside its own
namespace. -/
def Package.toString (pkg : Package) : String :=
  pkg.User ++ "/" ++ pkg.Repo ++ ":" ++ pkg.Version

/-- Error message of Validate when Entry is empty (rook.go line 76). -/
def msgNoEntry : String := "package does not define an entry point"

/-- Error message of Validate when Output is empty (rook.go line 80). -/
def msgNoOutput : String := "package does not define an output file"

/-- Error message of Validate when Entry equals Output (rook.go line 84). -/
def msgSameFile : String := "package entry and output point to the same file"

/-- Error message of EnsureDependencies when `local` is empty
(rook.go line 105). -/
def msgNotLocal : String := "package does not represent a locally stored package"

/-- Error message of EnsureDependencies when the local path does not exist
(rook.go line 109). -/
def msgNoExist : String := "package local path does not exist"

/-- Validate checks a package for missing fields (src/rook/rook.go lines
74-88).  A Go error is modelled as Option String: none is the nil error. -/
def Package.Validate (pkg : Package) : Option String :=
  if pkg.Entry = "" then some msgNoEntry
  else if pkg.Output = "" then some msgNoOutput
  else if pkg.Entry = pkg.Output then some msgSameFile
  else none

/-- GetURL generates a GitHub URL for a package (src/rook/rook.go lines
90-93). -/
def Package.GetURL (pkg : Package) : String :=
  "https://github.com/" ++ pkg.User ++ "/" ++ pkg.Repo

/-- Splits a character list at every occurrence of the character c; always
returns a non-empty list of (possibly empty) segments, the behaviour of
Go/Lean string splitting, defined structurally so the kernel can evaluate
it. -/
def splitOnChar (c : Char) : List Char → List (List Char)
  | [] => [[]]
  | x :: xs =>
    match splitOnChar c xs with
    | [] => if x = c then [[], []] else [[x]]
    | y :: ys => if x = c then [] :: y :: ys else (x :: y) :: ys

/-- True when some slash-separated segment of p is the path-traversal
segment dot-dot. -/
def containsDotDot (p : List Char) : Bool :=
  (splitOnChar '/' p).any (fun seg => seg = ['.', '.'])

/-- The zero value of PackageMeta (all fields empty), as produced by Go for
an uninitialised struct. -/
def emptyMeta : PackageMeta := ⟨"", "", "", ""⟩

/-- Modelled from the spec: helper of Explode once the reference has been
split into the owner-and-repository part, the subpath and the version.
The spec (section 4.1) makes owner and repository mandatory segments and
rejects missing segments and path-traversal segments.  The Go (value, err)
pair is modelled as PackageMeta times Option String, none being the nil
error. -/
def explodeOwnerRepo (ownerRepo p v : List Char) : PackageMeta × Option String :=
  match splitOnChar '/' ownerRepo with
  | [owner, repo] =>
    if owner.isEmpty || repo.isEmpty then
      (emptyMeta, some "malformed dependency reference: owner or repository missing")
    else if containsDotDot owner || containsDotDot repo || containsDotDot p then
      (emptyMeta, some "malformed dependency reference: path traversal segment")
    else
      (⟨String.mk owner, String.mk repo, String.mk p, String.mk v⟩, none)
  | _ => (emptyMeta, some "malformed dependency reference: owner or repository missing")

/-- Modelled from the spec: helper of Explode splitting off the optional
colon-prefixed subpath (spec section 4.1 grammar). -/
def explodeBase (base v : List Char) : PackageMeta × Option String :=
  match splitOnChar ':' base with
  | [ownerRepo] => explodeOwnerRepo ownerRepo [] v
  | [ownerRepo, p] => explodeOwnerRepo ownerRepo p v
  | _ => (emptyMeta, some "malformed dependency reference: more than one colon")

/-- Modelled from the spec: versioning/rook `DependencyString.Explode` is
not under src/ (rook.go calls it at line 97).  Spec section 4.1: grammar
`owner/repository[:subpath][@version]`; parsing is pure and deterministic;
whitespace is rejected, not trimmed; fails when owner or repository is
missing or a component contains a path-traversal segment. -/
def DependencyString.Explode (s : DependencyString) : PackageMeta × Option String :=
  if s.data.any Char.isWhitespace then
    (emptyMeta, some "malformed dependency reference: whitespace")
  else
    match splitOnChar '@' s.data with
    | [base] => explodeBase base []
    | [base, v] => explodeBase base v
    | _ => (emptyMeta, some "malformed dependency reference: more than one at sign")

/-- The zero value of Package (all fields empty), as produced by Go for the
uninitialised named return value of PackageFromDep. -/
def emptyPackage : Package :=
  { local_ := ""
    meta := emptyMeta
    Contributors := []
    Website := ""
    Entry := ""
    Output := ""
    Dependencies := []
    Builds := []
    Resources := [] }

/-- PackageFromDep creates a Package object from a Dependency String
(src/rook/rook.go lines 95-100): it explodes the string and copies the
four identity fields onto a zero-valued Package; the Go (pkg, err) pair is
modelled as Package times Option String with none as the nil error. -/
def PackageFromDep (depString : DependencyString) : Package × Option String :=
  let r := DependencyString.Explode depString
  ({ emptyPackage with meta := r.1 }, r.2)

/-- filepath.Join for the two clean, non-empty components used at rook.go
line 112. -/
def filepathJoin (a b : String) : String := a ++ "/" ++ b

/-- The ASCII single-quote character (code point 39), used by the
fmt.Errorf pattern at rook.go line 117. -/
def squote : String := String.singleton (Char.ofNat 39)

/-- Error text of rook.go line 117: fmt.Errorf with the dependency string
quoted in single quotes, followed by the underlying parse error. -/
def invalidDepMsg (d e : String) : String :=
  "package dependency " ++ squote ++ d ++ squote ++ " is invalid: " ++ e

/-- Error text of rook.go line 122: errors.Wrapf prefixes the message
(naming the failing package by its display string) to the wrapped error. -/
def ensureFailMsg (p : Package) (e : String) : String :=
  "failed to ensure package " ++ p.toString ++ ": " ++ e

/-- The outcome of one EnsureDependencies call: the returned error (none =
nil), the receiver as it stands after the call (the Go receiver is taken
by value and never written, which the embedding makes observable by
threading it to the result), and the instrumentation trace: the Package
arguments passed to EnsurePackage, in call order. -/
structure EnsureResult where
  err : Option String
  finalPkg : Package
  fetched : List Package
  deriving DecidableEq

/-- The dependency loop of EnsureDependencies (src/rook/rook.go lines
114-124), parameterised by the behaviour of the external fetch helper
EnsurePackage (not under src/; modelled from spec section 6 as a black-box
fetch-and-checkout capability returning nil or an error).  Returns the
resulting error together with the list of EnsurePackage call arguments in
order. -/
def EnsureDependenciesAux (fr : String → Package → Option String)
    (vendorDir : String) : List DependencyString → Option String × List Package
  | [] => (none, [])
  | d :: rest =>
    match PackageFromDep d with
    | (_, some e) => (some (invalidDepMsg d e), [])
    | (dep, none) =>
      match fr vendorDir dep with
      | some e => (some (ensureFailMsg dep e), [dep])
      | none =>
        let r := EnsureDependenciesAux fr vendorDir rest
        (r.1, dep :: r.2)

/-- EnsureDependencies (src/rook/rook.go lines 102-126).  The parameter ex
models util.Exists (not under src/; a black-box filesystem predicate), and
fr models the external EnsurePackage helper.  The Go function returns only
the error; the embedding additionally exposes the unchanged receiver and
the trace of EnsurePackage calls so that claims about fetch calls and
about mutation are statable. -/
def Package.EnsureDependencies (ex : String → Bool)
    (fr : String → Package → Option String) (pkg : Package) : EnsureResult :=
  if pkg.local_ = "" then ⟨some msgNotLocal, pkg, []⟩
  else if !(ex pkg.local_) then ⟨some msgNoExist, pkg, []⟩
  else
    let vendorDir := filepathJoin pkg.local_ "dependencies"
    let r := EnsureDependenciesAux fr vendorDir pkg.Dependencies
    ⟨r.1, pkg, r.2⟩

/-- Modelled from the spec, for refinement comparison only (spec section
4.4): the depth-first transitive-closure computation the spec ascribes to
the resolver, with a visited list serving as both dedup set and output
order (identity appended when first visited: parent before child, siblings
in declaration order), over a world function giving each identity's own
declared dependency list.  Fuelled for termination; used only at concrete
inputs. -/
def specResolve (world : PackageMeta → List DependencyString) :
    Nat → List PackageMeta → List DependencyString → List PackageMeta
  | _, visited, [] => visited
  | 0, visited, _ :: _ => visited
  | Nat.succ fuel, visited, d :: ds =>
    match DependencyString.Explode d with
    | (_, some _) => visited
    | (m, none) =>
      if m ∈ visited then specResolve world fuel visited ds
      else
        let visited2 := specResolve world fuel (visited ++ [m]) (world m)
        specResolve world fuel visited2 ds

/-- A root-like package located at the directory proj with the given
declared dependencies. -/
def mkRoot (deps : List DependencyString) : Package :=
  { emptyPackage with local_ := "proj", Dependencies := deps }

/-- Identity of the first diamond leg. -/
def libaMeta : PackageMeta := ⟨"alice", "liba", "", ""⟩

/-- Identity of the second diamond leg. -/
def libbMeta : PackageMeta := ⟨"bob", "libb", "", ""⟩

/-- The shared identity at the bottom of the diamond. -/
def libcMeta : PackageMeta := ⟨"carol", "libc", "", ""⟩

/-- The Package produced by parsing the reference of the first diamond leg. -/
def pkgA : Package := { emptyPackage with meta := libaMeta }

/-- The Package produced by parsing the reference of the second diamond leg. -/
def pkgB : Package := { emptyPackage with meta := libbMeta }

/-- A root manifest declaring the two legs of a diamond. -/
def diamondRoot : Package := mkRoot ["alice/liba", "bob/libb"]

/-- The manifest world of the diamond: both legs declare the shared third
dependency. -/
def diamondWorld (m : PackageMeta) : List DependencyString :=
  if m.Repo = "liba" || m.Repo = "libb" then ["carol/libc"] else []

/-- The manifest world of the two-cycle: liba declares libb and libb
declares liba. -/
def cycleWorld (m : PackageMeta) : List DependencyString :=
  if m.Repo = "liba" then ["bob/libb"]
  else if m.Repo = "libb" then ["alice/liba"]
  else []

/-- A root manifest declaring one member of the cycle. -/
def cycleRoot : Package := mkRoot ["alice/liba"]

/-- A filesystem on which every path exists. -/
def alwaysTrue : String → Bool := fun _ => true

/-- A fetch helper that always succeeds. -/
def fetchOk : String → Package → Option String := fun _ _ => none

/-- A package that validates: distinct non-empty entry and output. -/
def gamemodePkg : Package :=
  { emptyPackage with Entry := "gamemode.pwn", Output := "gamemode.amx" }

/-- A package whose entry and output are both the same non-empty file. -/
def xPkg : Package := { emptyPackage with Entry := "x.pwn", Output := "x.pwn" }

/-- The fetch helper that fails on the libb package with the message boom. -/
def fetchFailB : String → Package → Option String :=
  fun _ p => if p.Repo = "libb" then some "boom" else none

/-- A root manifest with three declared dependencies. -/
def threeRoot : Package := mkRoot ["alice/liba", "bob/libb", "carol/libc"]

/-- A manifest with one declared dependency and an existing local path,
which nothing marks as a root (the rook Package type cannot express
root-ness at all). -/
def plainRoot : Package := mkRoot ["alice/liba"]

/-- A manifest whose second of three declared references does not parse. -/
def badMidRoot : Package := mkRoot ["alice/liba", "noslash", "bob/libb"]

/-- A manifest with an existing local path and no declared dependencies. -/
def noDepRoot : Package := mkRoot []

/-- Step lemma: a dependency that parses and fetches cleanly contributes
itself to the trace and recurses. -/
theorem ensureAux_cons_ok (fr : String → Package → Option String)
    (vendor : String) (d : DependencyString) (rest : List DependencyString)
    (p : Package) (hpd : PackageFromDep d = (p, none)) (hf : fr vendor p = none) :
    EnsureDependenciesAux fr vendor (d :: rest) =
      ((EnsureDependenciesAux fr vendor rest).1,
        p :: (EnsureDependenciesAux fr vendor rest).2) := by
  simp [EnsureDependenciesAux, hpd, hf]

/-- Step lemma: a dependency that fails to parse aborts the loop at once. -/
theorem ensureAux_cons_parse_fail (fr : String → Package → Option String)
    (vendor : String) (d : DependencyString) (rest : List DependencyString)
    (p : Package) (e : String) (hpd : PackageFromDep d = (p, some e)) :
    EnsureDependenciesAux fr vendor (d :: rest) = (some (invalidDepMsg d e), []) := by
  simp [EnsureDependenciesAux, hpd]

/-- Step lemma: a dependency that parses but fails to fetch aborts the loop
with the wrapped error, the failed call still being recorded in the trace. -/
theorem ensureAux_cons_fetch_fail (fr : String → Package → Option String)
    (vendor : String) (d : DependencyString) (rest : List DependencyString)
    (p : Package) (e : String) (hpd : PackageFromDep d = (p, none))
    (hf : fr vendor p = some e) :
    EnsureDependenciesAux fr vendor (d :: rest) = (some (ensureFailMsg p e), [p]) := by
  simp [EnsureDependenciesAux, hpd, hf]

/-- When every declared reference parses and every fetch succeeds, the loop
returns the nil error and the trace is exactly the parsed dependency list,
in declaration order. -/
theorem ensureAux_ok (fr : String → Package → Option String) (vendor : String)
    (ds : List DependencyString)
    (hparse : ∀ d ∈ ds, (PackageFromDep d).2 = none)
    (hfetch : ∀ p : Package, fr vendor p = none) :
    EnsureDependenciesAux fr vendor ds =
      (none, ds.map (fun d => (PackageFromDep d).1)) := by
  induction ds with
  | nil => rfl
  | cons d rest ih =>
    have hd : (PackageFromDep d).2 = none := hparse d (List.mem_cons_self d rest)
    have hpd : PackageFromDep d = ((PackageFromDep d).1, none) := by
      rw [← hd]
    rw [ensureAux_cons_ok fr vendor d rest (PackageFromDep d).1 hpd
        (hfetch (PackageFromDep d).1)]
    rw [ih (fun x hx => hparse x (List.mem_cons_of_mem d hx))]
    simp

/-- When the references before bad parse and fetch cleanly and bad fails to
parse, the loop aborts with the message naming bad, having fetched exactly
the earlier dependencies. -/
theorem ensureAux_parse_fail (fr : String → Package → Option String)
    (vendor : String) (ds1 : List DependencyString) (bad : DependencyString)
    (ds2 : List DependencyString) (e : String)
    (hok : ∀ d ∈ ds1, (PackageFromDep d).2 = none)
    (hfetch : ∀ p : Package, fr vendor p = none)
    (hbad : (PackageFromDep bad).2 = some e) :
    EnsureDependenciesAux fr vendor (ds1 ++ bad :: ds2) =
      (some (invalidDepMsg bad e), ds1.map (fun d => (PackageFromDep d).1)) := by
  induction ds1 with
  | nil =>
    have hpd : PackageFromDep bad = ((PackageFromDep bad).1, some e) := by
      rw [← hbad]
    simpa using ensureAux_cons_parse_fail fr vendor bad ds2 (PackageFromDep bad).1 e hpd
  | cons d rest ih =>
    have hd : (PackageFromDep d).2 = none := hok d (List.mem_cons_self d rest)
    have hpd : PackageFromDep d = ((PackageFromDep d).1, none) := by
      rw [← hd]
    rw [List.cons_append,
      ensureAux_cons_ok fr vendor d (rest ++ bad :: ds2) (PackageFromDep d).1 hpd
        (hfetch (PackageFromDep d).1),
      ih (fun x hx => hok x (List.mem_cons_of_mem d hx))]
    simp

/-- When the references before bad parse and fetch cleanly, bad parses to
badp and the fetch of badp fails, the loop aborts with the wrapped fetch
error, having attempted exactly the earlier dependencies and badp. -/
theorem ensureAux_fetch_fail (fr : String → Package → Option String)
    (vendor : String) (ds1 : List DependencyString) (bad : DependencyString)
    (ds2 : List DependencyString) (badp : Package) (e : String)
    (hok : ∀ d ∈ ds1, (PackageFromDep d).2 = none)
    (hfok : ∀ d ∈ ds1, fr vendor (PackageFromDep d).1 = none)
    (hbad : PackageFromDep bad = (badp, none))
    (hbf : fr vendor badp = some e) :
    EnsureDependenciesAux fr vendor (ds1 ++ bad :: ds2) =
      (some (ensureFailMsg badp e),
        ds1.map (fun d => (PackageFromDep d).1) ++ [badp]) := by
  induction ds1 with
  | nil =>
    simpa using ensureAux_cons_fetch_fail fr vendor bad ds2 badp e hbad hbf
  | cons d rest ih =>
    have hd : (PackageFromDep d).2 = none := hok d (List.mem_cons_self d rest)
    have hpd : PackageFromDep d = ((PackageFromDep d).1, none) := by
      rw [← hd]
    rw [List.cons_append,
      ensureAux_cons_ok fr vendor d (rest ++ bad :: ds2) (PackageFromDep d).1 hpd
        (hfok d (List.mem_cons_self d rest)),
      ih (fun x hx => hok x (List.mem_cons_of_mem d hx))
        (fun x hx => hfok x (List.mem_cons_of_mem d hx))]
    simp

/-- When the two local-path checks pass, EnsureDependencies returns the
outcome of the dependency loop over the vendor directory, with the
receiver untouched. -/
theorem ensureDeps_eq (ex : String → Bool) (fr : String → Package → Option String)
    (pkg : Package) (hl : pkg.local_ ≠ "") (he : ex pkg.local_ = true) :
    Package.EnsureDependencies ex fr pkg =
      ⟨(EnsureDependenciesAux fr (filepathJoin pkg.local_ "dependencies") pkg.Dependencies).1,
        pkg,
        (EnsureDependenciesAux fr (filepathJoin pkg.local_ "dependencies") pkg.Dependencies).2⟩ := by
  simp [Package.EnsureDependencies, hl, he]

/-- Full success characterisation of EnsureDependencies: local checks pass,
every reference parses, every fetch succeeds. -/
theorem ensureDeps_ok (ex : String → Bool) (fr : String → Package → Option String)
    (pkg : Package) (hl : pkg.local_ ≠ "") (he : ex pkg.local_ = true)
    (hparse : ∀ d ∈ pkg.Dependencies, (PackageFromDep d).2 = none)
    (hfetch : ∀ p : Package, fr (filepathJoin pkg.local_ "dependencies") p = none) :
    Package.EnsureDependencies ex fr pkg =
      ⟨none, pkg, pkg.Dependencies.map (fun d => (PackageFromDep d).1)⟩ := by
  rw [ensureDeps_eq ex fr pkg hl he,
    ensureAux_ok fr (filepathJoin pkg.local_ "dependencies") pkg.Dependencies hparse hfetch]

/-- C1 counterexample: in the diamond scenario - a root declaring alice/liba
and bob/libb, where (per the manifest world) both of those declare the
shared third dependency carol/libc, which is therefore in the spec-side
transitive closure - running EnsureDependencies performs zero fetch calls
for the shared identity, not exactly one: the resolver of rook.go never
loads a vendored dependency manifest and never traverses transitive
dependencies (and the rook Package type has no allDependencies field). -/
theorem C1_counterexample :
    diamondWorld libaMeta = ["carol/libc"]
  ∧ diamondWorld libbMeta = ["carol/libc"]
  ∧ libcMeta ∈ specResolve diamondWorld 8 [] diamondRoot.Dependencies
  ∧ ((Package.EnsureDependencies alwaysTrue fetchOk diamondRoot).fetched.countP
      (fun p => decide (p.meta = libcMeta))) = 0 := by decide

/-- C1 amended: whenever the local-path checks pass, every declared
reference parses and every fetch succeeds, EnsureDependencies calls
EnsurePackage exactly once per directly declared dependency reference, in
declaration order, and returns the nil error; it performs no fetch for any
transitively declared identity and maintains no closure. -/
theorem C1_flat_resolution (ex : String → Bool)
    (fr : String → Package → Option String) (pkg : Package)
    (hl : pkg.local_ ≠ "") (he : ex pkg.local_ = true)
    (hparse : ∀ d ∈ pkg.Dependencies, (PackageFromDep d).2 = none)
    (hfetch : ∀ p : Package, fr (filepathJoin pkg.local_ "dependencies") p = none) :
    (Package.EnsureDependencies ex fr pkg).fetched =
      pkg.Dependencies.map (fun d => (PackageFromDep d).1)
  ∧ (Package.EnsureDependencies ex fr pkg).err = none := by
  rw [ensureDeps_ok ex fr pkg hl he hparse hfetch]
  exact ⟨rfl, rfl⟩

/-- C1 witness: the amended statement at the diamond root, where the two
declared legs are fetched once each. -/
theorem C1_flat_resolution_witness :
    (Package.EnsureDependencies alwaysTrue fetchOk diamondRoot).fetched = [pkgA, pkgB]
  ∧ (Package.EnsureDependencies alwaysTrue fetchOk diamondRoot).err = none := by
  have h := C1_flat_resolution alwaysTrue fetchOk diamondRoot (by decide) rfl
    (by decide) (fun p => rfl)
  exact ⟨h.1.trans (by decide), h.2⟩

/-- C2 counterexample: on the diamond root, the shared identity carol/libc
belongs to the spec-side deduplicated transitive closure, yet after
EnsureDependencies the root package is unchanged (the rook Package type
has no allDependencies field to fill) and the only identities the call
processed are the two direct declarations - the transitive identity is
absent, so no complete transitive closure is recorded anywhere. -/
theorem C2_counterexample :
    libcMeta ∈ specResolve diamondWorld 8 [] diamondRoot.Dependencies
  ∧ (Package.EnsureDependencies alwaysTrue fetchOk diamondRoot).finalPkg = diamondRoot
  ∧ (Package.EnsureDependencies alwaysTrue fetchOk diamondRoot).fetched.map Package.meta
      = [libaMeta, libbMeta]
  ∧ libcMeta ∉ (Package.EnsureDependencies alwaysTrue fetchOk diamondRoot).fetched.map
      Package.meta := by decide

/-- C2 amended: on success EnsureDependencies stores no closure at all -
the receiver is returned unchanged and the identities processed are
exactly the parses of the directly declared references, in declaration
order (which is trivially parent-before-child and sibling-ordered, there
being no transitive traversal). -/
theorem C2_direct_identities_only (ex : String → Bool)
    (fr : String → Package → Option String) (pkg : Package)
    (hl : pkg.local_ ≠ "") (he : ex pkg.local_ = true)
    (hparse : ∀ d ∈ pkg.Dependencies, (PackageFromDep d).2 = none)
    (hfetch : ∀ p : Package, fr (filepathJoin pkg.local_ "dependencies") p = none) :
    (Package.EnsureDependencies ex fr pkg).fetched.map Package.meta =
      pkg.Dependencies.map (fun d => (DependencyString.Explode d).1)
  ∧ (Package.EnsureDependencies ex fr pkg).finalPkg = pkg := by
  rw [ensureDeps_ok ex fr pkg hl he hparse hfetch]
  refine ⟨?_, rfl⟩
  simp [List.map_map, PackageFromDep, Function.comp]

/-- C2 witness: the amended statement at the diamond root. -/
theorem C2_direct_identities_only_witness :
    (Package.EnsureDependencies alwaysTrue fetchOk diamondRoot).fetched.map Package.meta
      = [libaMeta, libbMeta]
  ∧ (Package.EnsureDependencies alwaysTrue fetchOk diamondRoot).finalPkg = diamondRoot := by
  have h := C2_direct_identities_only alwaysTrue fetchOk diamondRoot (by decide) rfl
    (by decide) (fun p => rfl)
  exact ⟨h.1.trans (by decide), h.2⟩

/-- C3: with three declared dependencies of which the first parses and
fetches cleanly and the fetch of the second fails with message m,
EnsureDependencies aborts: the returned error is the wrap of m naming the
failing identity - its text contains the owner/repository display string
as an explicit substring decomposition - and EnsurePackage was called
exactly on the first and second dependency, never on the third. -/
theorem C3_fetch_fail_aborts (ex : String → Bool)
    (fr : String → Package → Option String) (pkg : Package)
    (d1 d2 d3 : DependencyString) (p1 p2 : Package) (m : String)
    (hl : pkg.local_ ≠ "") (he : ex pkg.local_ = true)
    (hd : pkg.Dependencies = [d1, d2, d3])
    (h1 : PackageFromDep d1 = (p1, none))
    (h2 : PackageFromDep d2 = (p2, none))
    (hf1 : fr (filepathJoin pkg.local_ "dependencies") p1 = none)
    (hf2 : fr (filepathJoin pkg.local_ "dependencies") p2 = some m) :
    (Package.EnsureDependencies ex fr pkg).err =
      some ("failed to ensure package " ++ (p2.User ++ "/" ++ p2.Repo) ++
        (":" ++ p2.Version ++ ": " ++ m))
  ∧ (Package.EnsureDependencies ex fr pkg).fetched = [p1, p2] := by
  have haux := ensureAux_fetch_fail fr (filepathJoin pkg.local_ "dependencies")
    [d1] d2 [d3] p2 m
    (by intro d hdm; rw [List.mem_singleton] at hdm; subst hdm; rw [h1])
    (by intro d hdm; rw [List.mem_singleton] at hdm; subst hdm; rw [h1]; exact hf1)
    h2 hf2
  rw [ensureDeps_eq ex fr pkg hl he, hd]
  have hl1 : ([d1] : List DependencyString) ++ d2 :: [d3] = [d1, d2, d3] := rfl
  rw [← hl1, haux]
  constructor
  · show some (ensureFailMsg p2 m) = _
    simp [ensureFailMsg, Package.toString, String.append_assoc]
  · show [(PackageFromDep d1).1] ++ [p2] = [p1, p2]
    rw [h1]
    rfl

/-- C3 witness: a concrete root with three dependencies whose second fetch
fails with the message boom. -/
theorem C3_fetch_fail_aborts_witness :
    (Package.EnsureDependencies alwaysTrue fetchFailB threeRoot).err =
      some ("failed to ensure package " ++ (pkgB.User ++ "/" ++ pkgB.Repo) ++
        (":" ++ pkgB.Version ++ ": " ++ "boom"))
  ∧ (Package.EnsureDependencies alwaysTrue fetchFailB threeRoot).fetched = [pkgA, pkgB] :=
  C3_fetch_fail_aborts alwaysTrue fetchFailB threeRoot "alice/liba" "bob/libb"
    "carol/libc" pkgA pkgB "boom" (by decide) rfl (by decide) (by decide) (by decide)
    (by decide) (by decide)

/-- C4 counterexample: EnsureDependencies performs no root-ness check - the
rook Package type has no isRoot field, so nothing marks plainRoot as the
actively developed root manifest - yet, its local path existing, the call
succeeds and performs a fetch, where the claim requires every manifest
violating the isRoot precondition to fail immediately with a
NotALocalPackage error before any fetch. -/
theorem C4_counterexample :
    (Package.EnsureDependencies alwaysTrue fetchOk plainRoot).err = none
  ∧ (Package.EnsureDependencies alwaysTrue fetchOk plainRoot).fetched.length = 1 := by
  decide

/-- C4 amended: the only preconditions EnsureDependencies enforces are that
the local path is non-empty and that util.Exists accepts it; when either
fails the call returns one of the two not-a-local-package errors at once,
with no fetch performed.  There is no isRoot check. -/
theorem C4_local_checks (ex : String → Bool)
    (fr : String → Package → Option String) (pkg : Package)
    (h : pkg.local_ = "" ∨ ex pkg.local_ = false) :
    ((Package.EnsureDependencies ex fr pkg).err = some msgNotLocal
      ∨ (Package.EnsureDependencies ex fr pkg).err = some msgNoExist)
  ∧ (Package.EnsureDependencies ex fr pkg).fetched = [] := by
  rcases h with h | h
  · simp [Package.EnsureDependencies, h]
  · by_cases hl : pkg.local_ = ""
    · simp [Package.EnsureDependencies, hl]
    · simp [Package.EnsureDependencies, hl, h]

/-- C4 witness: the amended statement on a package with an empty local
path. -/
theorem C4_local_checks_witness :
    ((Package.EnsureDependencies alwaysTrue fetchOk emptyPackage).err = some msgNotLocal
      ∨ (Package.EnsureDependencies alwaysTrue fetchOk emptyPackage).err = some msgNoExist)
  ∧ (Package.EnsureDependencies alwaysTrue fetchOk emptyPackage).fetched = [] :=
  C4_local_checks alwaysTrue fetchOk emptyPackage (Or.inl rfl)

/-- C5: for every root manifest whose declared references all parse and
fetch cleanly, EnsureDependencies returns the nil error, in particular in
the presence of a dependency cycle: the hypotheses exhibit identities a
and b reachable from the root with a declaring b and b declaring a in the
manifest world.  The resolver never loads nested manifests, so the cycle
cannot make it fail, and the embedding is a total function, so the
computation terminates by construction. -/
theorem C5_cycle_terminates (world : PackageMeta → List DependencyString)
    (a b : PackageMeta) (dr da db : DependencyString)
    (ex : String → Bool) (fr : String → Package → Option String) (pkg : Package)
    (hroot : dr ∈ pkg.Dependencies) (hra : (DependencyString.Explode dr).1 = a)
    (hab : da ∈ world a) (hExA : DependencyString.Explode da = (b, none))
    (hba : db ∈ world b) (hExB : DependencyString.Explode db = (a, none))
    (hl : pkg.local_ ≠ "") (he : ex pkg.local_ = true)
    (hparse : ∀ d ∈ pkg.Dependencies, (PackageFromDep d).2 = none)
    (hfetch : ∀ p : Package, fr (filepathJoin pkg.local_ "dependencies") p = none) :
    (Package.EnsureDependencies ex fr pkg).err = none := by
  rw [ensureDeps_ok ex fr pkg hl he hparse hfetch]

/-- C5 witness: the cycle world in which alice/liba declares bob/libb and
bob/libb declares alice/liba, resolved from a root declaring alice/liba. -/
theorem C5_cycle_terminates_witness :
    (Package.EnsureDependencies alwaysTrue fetchOk cycleRoot).err = none :=
  C5_cycle_terminates cycleWorld libaMeta libbMeta "alice/liba" "bob/libb" "alice/liba"
    alwaysTrue fetchOk cycleRoot (by decide) (by decide) (by decide) (by decide)
    (by decide) (by decide) (by decide) rfl (by decide) (fun p => rfl)

/-- C6: when the declared list is ds1 followed by a reference bad that
fails to parse (followed by anything), with everything before bad parsing
and fetching cleanly, EnsureDependencies aborts with the error text that
contains the failing reference string bad - shown between an explicit
prefix and suffix - and the EnsurePackage calls are exactly the parses of
ds1: nothing at or after bad is fetched. -/
theorem C6_parse_fail_aborts (ex : String → Bool)
    (fr : String → Package → Option String) (pkg : Package)
    (ds1 : List DependencyString) (bad : DependencyString)
    (ds2 : List DependencyString) (e : String)
    (hl : pkg.local_ ≠ "") (he : ex pkg.local_ = true)
    (hd : pkg.Dependencies = ds1 ++ bad :: ds2)
    (hok : ∀ d ∈ ds1, (PackageFromDep d).2 = none)
    (hfetch : ∀ p : Package, fr (filepathJoin pkg.local_ "dependencies") p = none)
    (hbad : (PackageFromDep bad).2 = some e) :
    (Package.EnsureDependencies ex fr pkg).err =
      some ("package dependency " ++ squote ++ bad ++ (squote ++ " is invalid: " ++ e))
  ∧ (Package.EnsureDependencies ex fr pkg).fetched =
      ds1.map (fun d => (PackageFromDep d).1) := by
  rw [ensureDeps_eq ex fr pkg hl he, hd,
    ensureAux_parse_fail fr (filepathJoin pkg.local_ "dependencies") ds1 bad ds2 e
      hok hfetch hbad]
  constructor
  · show some (invalidDepMsg bad e) = _
    simp [invalidDepMsg, String.append_assoc]
  · rfl

/-- C6 witness: the second of three references is the unparsable string
noslash; only the first dependency is fetched and the error names
noslash. -/
theorem C6_parse_fail_aborts_witness :
    (Package.EnsureDependencies alwaysTrue fetchOk badMidRoot).err =
      some ("package dependency " ++ squote ++ "noslash" ++ (squote ++ " is invalid: "
        ++ "malformed dependency reference: owner or repository missing"))
  ∧ (Package.EnsureDependencies alwaysTrue fetchOk badMidRoot).fetched = [pkgA] := by
  have h := C6_parse_fail_aborts alwaysTrue fetchOk badMidRoot ["alice/liba"] "noslash"
    ["bob/libb"] "malformed dependency reference: owner or repository missing"
    (by decide) rfl rfl (by decide) (fun p => rfl) (by decide)
  exact ⟨h.1, h.2.trans (by decide)⟩

/-- C7: Validate fails with the missing-entry error when Entry is empty,
with the missing-output error when Entry is set but Output is empty, with
the entry-equals-output error when both are set and equal, and succeeds in
every other case. -/
theorem C7_validate_cases (pkg : Package) :
    (pkg.Entry = "" → pkg.Validate = some msgNoEntry)
  ∧ (pkg.Entry ≠ "" → pkg.Output = "" → pkg.Validate = some msgNoOutput)
  ∧ (pkg.Entry ≠ "" → pkg.Output ≠ "" → pkg.Entry = pkg.Output →
      pkg.Validate = some msgSameFile)
  ∧ (pkg.Entry ≠ "" → pkg.Output ≠ "" → pkg.Entry ≠ pkg.Output →
      pkg.Validate = none) := by
  refine ⟨fun h1 => ?_, fun h1 h2 => ?_, fun h1 h2 h3 => ?_, fun h1 h2 h3 => ?_⟩
  · simp [Package.Validate, h1]
  · simp [Package.Validate, h1, h2]
  · simp [Package.Validate, h1, h2, h3]
  · simp [Package.Validate, h1, h2, h3]

/-- C7 witness: entry gamemode.pwn with output gamemode.amx validates;
entry and output both x.pwn fail with the entry-equals-output error. -/
theorem C7_validate_cases_witness :
    gamemodePkg.Validate = none ∧ xPkg.Validate = some msgSameFile :=
  ⟨(C7_validate_cases gamemodePkg).2.2.2 (by decide) (by decide) (by decide),
    (C7_validate_cases xPkg).2.2.1 (by decide) (by decide) (by decide)⟩

/-- C8: EnsureDependencies never modifies the package it is called on: the
Go receiver is taken by value and no statement of rook.go lines 103-126
writes a field of it, which the embedding reflects by threading the
receiver to the result; the final package equals the initial one for every
filesystem, fetch behaviour and package, on success and on failure
alike. -/
theorem C8_receiver_unchanged (ex : String → Bool)
    (fr : String → Package → Option String) (pkg : Package) :
    (Package.EnsureDependencies ex fr pkg).finalPkg = pkg := by
  unfold Package.EnsureDependencies
  split
  · rfl
  split
  · rfl
  · rfl

/-- C9: Validate checks Entry first, Output second, equality last: an empty
Entry always yields the missing-entry error (also when Output is empty and
thus equal to Entry), and the entry-equals-output error occurs only when
both fields are non-empty and equal. -/
theorem C9_validate_order (pkg : Package) :
    (pkg.Entry = "" → pkg.Validate = some msgNoEntry)
  ∧ (pkg.Validate = some msgSameFile →
      pkg.Entry ≠ "" ∧ pkg.Output ≠ "" ∧ pkg.Entry = pkg.Output) := by
  constructor
  · intro h1
    simp [Package.Validate, h1]
  · intro h
    by_cases h1 : pkg.Entry = ""
    · simp only [Package.Validate, if_pos h1] at h
      exact absurd h (by decide)
    by_cases h2 : pkg.Output = ""
    · simp only [Package.Validate, if_neg h1, if_pos h2] at h
      exact absurd h (by decide)
    by_cases h3 : pkg.Entry = pkg.Output
    · exact ⟨h1, h2, h3⟩
    · simp only [Package.Validate, if_neg h1, if_neg h2, if_neg h3] at h
      exact absurd h (by simp)

/-- C9 witness: a package with empty Entry and empty Output (which are
therefore equal) gets the missing-entry error. -/
theorem C9_validate_order_witness :
    emptyPackage.Validate = some msgNoEntry :=
  (C9_validate_order emptyPackage).1 rfl

/-- C10: a package whose local path is set and exists and whose declared
dependency list is empty resolves successfully with no fetch calls at
all. -/
theorem C10_no_deps_no_fetch (ex : String → Bool)
    (fr : String → Package → Option String) (pkg : Package)
    (hl : pkg.local_ ≠ "") (he : ex pkg.local_ = true)
    (hd : pkg.Dependencies = []) :
    (Package.EnsureDependencies ex fr pkg).err = none
  ∧ (Package.EnsureDependencies ex fr pkg).fetched = [] := by
  rw [ensureDeps_eq ex fr pkg hl he, hd]
  exact ⟨rfl, rfl⟩

/-- C10 witness: the dependency-free root at the directory proj. -/
theorem C10_no_deps_no_fetch_witness :
    (Package.EnsureDependencies alwaysTrue fetchOk noDepRoot).err = none
  ∧ (Package.EnsureDependencies alwaysTrue fetchOk noDepRoot).fetched = [] :=
  C10_no_deps_no_fetch alwaysTrue fetchOk noDepRoot (by decide) rfl rfl
